import Mathlib

/-!
Verification of the copy-trading execution engine of the
Polymarket-Copy-Trading-Bot repository.

Python floats are embedded as rationals (`ℚ`): every arithmetic operation
performed by the verified code paths is one of `+ - * /` and comparisons,
and the properties at stake are order-theoretic, so the embedding is exact
up to floating-point rounding.  Log strings (the `reasoning` field and all
`Logger` calls) are not modelled: no verified property depends on them.
-/

namespace PolymarketBot

/-! ## config/copy_strategy.py : data model -/

/-- The `CopyStrategy` enum of `config/copy_strategy.py`. -/
inductive CopyStrategy where
  | PERCENTAGE
  | FIXED
  | ADAPTIVE
deriving DecidableEq, Repr

/-- The `MultiplierTier` dataclass: `min`, optional `max`, `multiplier`. -/
structure MultiplierTier where
  min : ℚ
  max : Option ℚ
  multiplier : ℚ
deriving DecidableEq, Repr

/-- The `CopyStrategyConfig` dataclass (defaults as in the source). -/
structure CopyStrategyConfig where
  strategy : CopyStrategy
  copy_size : ℚ
  adaptive_min_percent : Option ℚ := none
  adaptive_max_percent : Option ℚ := none
  adaptive_threshold : Option ℚ := none
  tiered_multipliers : Option (List MultiplierTier) := none
  trade_multiplier : Option ℚ := none
  max_order_size_usd : ℚ := 100
  min_order_size_usd : ℚ := 1
  max_position_size_usd : Option ℚ := none
  max_daily_volume_usd : Option ℚ := none
deriving DecidableEq, Repr

/-- The `OrderSizeCalculation` dataclass (the `reasoning` string is not
modelled). -/
structure OrderSizeCalculation where
  trader_order_size : ℚ
  base_amount : ℚ
  final_amount : ℚ
  strategy : CopyStrategy
  capped_by_max : Bool
  reduced_by_balance : Bool
  below_minimum : Bool
deriving DecidableEq, Repr

/-- Python's `a or b` on an optional float: `None` and `0.0` are falsy. -/
def py_or (o : Option ℚ) (d : ℚ) : ℚ :=
  match o with
  | none => d
  | some v => if v = 0 then d else v

/-- `_lerp` of `config/copy_strategy.py`. -/
def _lerp (a b t : ℚ) : ℚ :=
  a + (b - a) * max 0 (min 1 t)

/-- `_calculate_adaptive_percent` of `config/copy_strategy.py`. -/
def _calculate_adaptive_percent (config : CopyStrategyConfig)
    (trader_order_size : ℚ) : ℚ :=
  let min_percent := py_or config.adaptive_min_percent config.copy_size
  let max_percent := py_or config.adaptive_max_percent config.copy_size
  let threshold := py_or config.adaptive_threshold 500
  if trader_order_size ≥ threshold then
    _lerp config.copy_size min_percent (min 1 (trader_order_size / threshold - 1))
  else
    _lerp max_percent config.copy_size (trader_order_size / threshold)

/-- The tier-scanning loop inside `get_trade_multiplier`: the first tier
(in list order) with `trader_order_size >= tier.min` and, when `tier.max`
is bounded, `trader_order_size < tier.max`, wins. -/
def _tier_lookup : List MultiplierTier → ℚ → Option ℚ
  | [], _ => none
  | t :: ts, s =>
    if s ≥ t.min then
      match t.max with
      | none => some t.multiplier
      | some m => if s < m then some t.multiplier else _tier_lookup ts s
    else _tier_lookup ts s

/-- `get_trade_multiplier` of `config/copy_strategy.py`: tiered table first
(falling back to the last tier when no tier matches), then the scalar
`trade_multiplier`, then `1.0`. -/
def get_trade_multiplier (config : CopyStrategyConfig)
    (trader_order_size : ℚ) : ℚ :=
  match config.tiered_multipliers.getD [] with
  | [] =>
    match config.trade_multiplier with
    | some m => m
    | none => 1
  | t :: ts =>
    match _tier_lookup (t :: ts) trader_order_size with
    | some m => m
    | none => (ts.getLastD t).multiplier

/-- `calculate_order_size` of `config/copy_strategy.py`: base amount by
strategy, tier/scalar multiplier, cap at `max_order_size_usd`, position
limit, 99% balance cap, then the minimum-order floor which zeroes the
amount. -/
def calculate_order_size (config : CopyStrategyConfig)
    (trader_order_size available_balance : ℚ)
    (current_position_size : ℚ := 0) : OrderSizeCalculation :=
  let base_amount : ℚ :=
    match config.strategy with
    | .PERCENTAGE => trader_order_size * (config.copy_size / 100)
    | .FIXED => config.copy_size
    | .ADAPTIVE =>
      trader_order_size * (_calculate_adaptive_percent config trader_order_size / 100)
  let multiplier := get_trade_multiplier config trader_order_size
  let amount0 := base_amount * multiplier
  let capped_by_max := amount0 > config.max_order_size_usd
  let amount1 := if amount0 > config.max_order_size_usd then config.max_order_size_usd else amount0
  let amount2 :=
    match config.max_position_size_usd with
    | none => amount1
    | some mps =>
      if current_position_size + amount1 > mps then
        let allowed := max 0 (mps - current_position_size)
        if allowed < config.min_order_size_usd then 0 else allowed
      else amount1
  let max_affordable := available_balance * (99 / 100)
  let reduced_by_balance := amount2 > max_affordable
  let amount3 := if amount2 > max_affordable then max_affordable else amount2
  let below_minimum := amount3 < config.min_order_size_usd
  let amount4 := if amount3 < config.min_order_size_usd then 0 else amount3
  { trader_order_size := trader_order_size
    base_amount := base_amount
    final_amount := amount4
    strategy := config.strategy
    capped_by_max := capped_by_max
    reduced_by_balance := reduced_by_balance
    below_minimum := below_minimum }

/-- `validate_copy_strategy_config` of `config/copy_strategy.py`: the list
of error strings, in source order. -/
def validate_copy_strategy_config (config : CopyStrategyConfig) : List String :=
  (if config.copy_size ≤ 0 then ["copy_size must be positive"] else []) ++
  (if config.strategy = .PERCENTAGE ∧ config.copy_size > 100 then
    ["copy_size for PERCENTAGE strategy should be <= 100"] else []) ++
  (if config.max_order_size_usd ≤ 0 then ["max_order_size_usd must be positive"] else []) ++
  (if config.min_order_size_usd ≤ 0 then ["min_order_size_usd must be positive"] else []) ++
  (if config.min_order_size_usd > config.max_order_size_usd then
    ["min_order_size_usd cannot be greater than max_order_size_usd"] else []) ++
  (if config.strategy = .ADAPTIVE then
    match config.adaptive_min_percent, config.adaptive_max_percent with
    | none, _ =>
      ["ADAPTIVE strategy requires adaptive_min_percent and adaptive_max_percent"]
    | _, none =>
      ["ADAPTIVE strategy requires adaptive_min_percent and adaptive_max_percent"]
    | some lo, some hi =>
      if lo > hi then ["adaptive_min_percent cannot be greater than adaptive_max_percent"]
      else []
  else [])

/-! ## config/copy_strategy.py : parse_tiered_multipliers -/

instance {ε α : Type _} [DecidableEq ε] [DecidableEq α] : DecidableEq (Except ε α) :=
  fun x y =>
    match x, y with
    | .error e, .error f =>
      if h : e = f then isTrue (by subst h; rfl)
      else isFalse (by intro hc; injection hc; exact h ‹_›)
    | .error _, .ok _ => isFalse (by intro hc; injection hc)
    | .ok _, .error _ => isFalse (by intro hc; injection hc)
    | .ok a, .ok b =>
      if h : a = b then isTrue (by subst h; rfl)
      else isFalse (by intro hc; injection hc; exact h ‹_›)

/-- Python `str.strip()` on a character list (ASCII whitespace). -/
def py_strip (cs : List Char) : List Char :=
  ((cs.dropWhile Char.isWhitespace).reverse.dropWhile Char.isWhitespace).reverse

/-- Python `str.split(sep)` (single-character separator, no maxsplit) on a
character list. -/
def split_on_char (sep : Char) : List Char → List (List Char)
  | [] => [[]]
  | c :: cs =>
    match split_on_char sep cs with
    | [] => [[]]
    | r :: rs => if c = sep then [] :: r :: rs else (c :: r) :: rs

/-- Value of a non-empty all-digit character list, `none` otherwise. -/
def decimal_nat? (cs : List Char) : Option ℕ :=
  if cs = [] then none
  else
    cs.foldl
      (fun acc c =>
        match acc with
        | none => none
        | some n => if c.isDigit then some (n * 10 + (c.toNat - 48)) else none)
      (some 0)

/-- Model of Python `float()` restricted to the plain decimal literals of
tier strings: surrounding whitespace, an optional sign, digits and an
optional fractional part (exponents, `inf`/`nan` and underscores are not
modelled). `none` stands for `ValueError`. -/
def parse_py_float (s : List Char) : Option ℚ :=
  let t := py_strip s
  let signed : ℚ × List Char :=
    match t with
    | '-' :: rest => (-1, rest)
    | '+' :: rest => (1, rest)
    | cs => (1, cs)
  let sign := signed.1
  let body := signed.2
  match split_on_char '.' body with
  | [a] => (decimal_nat? a).map (fun n => sign * (n : ℚ))
  | [a, b] =>
    if a = [] ∧ b = [] then none
    else
      let ip : Option ℕ := if a = [] then some 0 else decimal_nat? a
      let fp : Option ℚ :=
        if b = [] then some 0
        else (decimal_nat? b).map (fun n => (n : ℚ) / 10 ^ b.length)
      match ip, fp with
      | some i, some f => some (sign * ((i : ℚ) + f))
      | _, _ => none
  | _ => none

/-- Splitting a character list at its first dash, as Python's
`split("-", 1)` does when a dash is present. -/
def break_on_dash : List Char → List Char × List Char
  | [] => ([], [])
  | c :: cs =>
    if c = '-' then ([], cs)
    else
      let p := break_on_dash cs
      (c :: p.1, p.2)

/-- One `min-max:multiplier` / `min+:multiplier` item of
`parse_tiered_multipliers`; `Except.error` stands for the `ValueError`
raised on a malformed item (including a failing `float()` conversion). -/
def parse_tier_def (tier_def : List Char) : Except String MultiplierTier :=
  match split_on_char ':' tier_def with
  | [range_part, multiplier_str] =>
    match parse_py_float multiplier_str with
    | none => .error "Invalid tier format"
    | some multiplier =>
      if multiplier < 0 then .error "Invalid multiplier in tier"
      else if range_part.getLast? = some '+' then
        match parse_py_float range_part.dropLast with
        | none => .error "Invalid tier format"
        | some min_val =>
          if min_val < 0 then .error "Invalid minimum value in tier"
          else .ok ⟨min_val, none, multiplier⟩
      else if range_part.contains '-' then
        match parse_py_float (break_on_dash range_part).1,
            parse_py_float (break_on_dash range_part).2 with
        | some min_val, some max_val =>
          if min_val < 0 ∨ max_val ≤ min_val then .error "Invalid range in tier"
          else .ok ⟨min_val, some max_val, multiplier⟩
        | _, _ => .error "Invalid tier format"
      else .error "Invalid range format in tier"
  | _ => .error "Invalid tier format"

/-- Stable insertion placing `t` after every tier whose `min` key is not
greater, the building block of Python's stable ascending sort. -/
def insert_by_min (t : MultiplierTier) : List MultiplierTier → List MultiplierTier
  | [] => [t]
  | u :: us => if u.min ≤ t.min then u :: insert_by_min t us else t :: u :: us

/-- `tiers.sort(key=lambda tier: tier.min)`: stable sort by the `min` key. -/
def sort_by_min (ts : List MultiplierTier) : List MultiplierTier :=
  ts.foldl (fun acc t => insert_by_min t acc) []

/-- The post-sort validation loop of `parse_tiered_multipliers`: every
non-final tier must have a bounded `max` not exceeding the next `min`. -/
def check_sorted_tiers : List MultiplierTier → Except String Unit
  | [] => .ok ()
  | [_] => .ok ()
  | t :: u :: rest =>
    match t.max with
    | none => .error "Tier with infinite upper bound must be last"
    | some m =>
      if m > u.min then .error "Overlapping tiers"
      else check_sorted_tiers (u :: rest)

/-- `parse_tiered_multipliers` of `config/copy_strategy.py`: blank input
parses to the empty table; otherwise split on commas, parse every item,
sort by `min`, then run the overlap / unbounded-tier validation. -/
def parse_tiered_multipliers (tiers_str : String) : Except String (List MultiplierTier) :=
  if py_strip tiers_str.data = [] then .ok []
  else
    match (((split_on_char ',' tiers_str.data).map py_strip).filter (· ≠ [])).mapM
        parse_tier_def with
    | .error e => .error e
    | .ok tiers =>
      match check_sorted_tiers (sort_by_min tiers) with
      | .error e => .error e
      | .ok _ => .ok (sort_by_min tiers)

/-! ## services/trade_monitor.py : ingestion and deduplication -/

/-- A raw entry of the trade feed (`activity` dict): every field may be
absent, as `_process_new_trade` reads each one with `.get`. -/
structure RawActivity where
  proxyWallet : Option String := none
  timestamp : Option ℤ := none
  conditionId : Option String := none
  type : Option String := none
  size : Option ℚ := none
  usdcSize : Option ℚ := none
  transactionHash : Option String := none
  price : Option ℚ := none
  asset : Option String := none
  side : Option String := none
  outcomeIndex : Option ℤ := none
  title : Option String := none
  slug : Option String := none
  icon : Option String := none
  eventSlug : Option String := none
  outcome : Option String := none
  name : Option String := none
  pseudonym : Option String := none
  bio : Option String := none
  profileImage : Option String := none
  profileImageOptimized : Option String := none
deriving DecidableEq, Repr

/-- A stored trade record, with exactly the fields `_process_new_trade`
inserts (`new_activity`). -/
structure ActivityDoc where
  proxyWallet : String
  timestamp : ℤ
  conditionId : String
  type : String
  size : ℚ
  usdcSize : ℚ
  transactionHash : String
  price : ℚ
  asset : String
  side : String
  outcomeIndex : ℤ
  title : String
  slug : String
  icon : String
  eventSlug : String
  outcome : String
  name : String
  pseudonym : String
  bio : String
  profileImage : String
  profileImageOptimized : String
  bot : Bool
  botExcutedTime : ℕ
deriving DecidableEq, Repr

/-- `_process_new_trade` of `services/trade_monitor.py` acting on one
trader's activity collection (modelled as an insertion-ordered list): a
record whose transaction hash is already present inserts nothing; a new
record is inserted, directly in the terminal skip state (`bot = true`,
`botExcutedTime = 999`) when its timestamp is older than the cutoff. -/
def _process_new_trade (collection : List ActivityDoc) (activity : RawActivity)
    (cutoff_ts : ℤ) : List ActivityDoc :=
  let timestamp := activity.timestamp.getD 0
  let transaction_hash := activity.transactionHash.getD ""
  match collection.find? (fun d => d.transactionHash == transaction_hash) with
  | some _ => collection
  | none =>
    let too_old := timestamp < cutoff_ts
    collection ++
      [{ proxyWallet := activity.proxyWallet.getD ""
         timestamp := timestamp
         conditionId := activity.conditionId.getD ""
         type := activity.type.getD ""
         size := activity.size.getD 0
         usdcSize := activity.usdcSize.getD 0
         transactionHash := transaction_hash
         price := activity.price.getD 0
         asset := activity.asset.getD ""
         side := activity.side.getD ""
         outcomeIndex := activity.outcomeIndex.getD 0
         title := activity.title.getD ""
         slug := activity.slug.getD ""
         icon := activity.icon.getD ""
         eventSlug := activity.eventSlug.getD ""
         outcome := activity.outcome.getD ""
         name := activity.name.getD ""
         pseudonym := activity.pseudonym.getD ""
         bio := activity.bio.getD ""
         profileImage := activity.profileImage.getD ""
         profileImageOptimized := activity.profileImageOptimized.getD ""
         bot := too_old
         botExcutedTime := if too_old then 999 else 0 }]

/-- The first-run bulk update of `trade_monitor`:
`update_many({"bot": False}, {"$set": {"bot": True, "botExcutedTime": 999}})`. -/
def mark_historical_trades (collection : List ActivityDoc) : List ActivityDoc :=
  collection.map fun d =>
    if d.bot = false then { d with bot := true, botExcutedTime := 999 } else d

/-- `_read_temp_trades` of `services/trade_executor.py` restricted to one
trader's collection: the unprocessed, unattempted TRADE records. -/
def _read_temp_trades (collection : List ActivityDoc) : List ActivityDoc :=
  collection.filter fun d =>
    d.type == "TRADE" && d.bot == false && d.botExcutedTime == 0

/-! ## services/trade_executor.py : trade aggregation buffer -/

/-- `TradeWithUser` of `services/trade_executor.py`. -/
structure TradeWithUser where
  trade : ActivityDoc
  user_address : String
deriving DecidableEq, Repr

/-- `AggregatedTrade` of `services/trade_executor.py` (times as rationals). -/
structure AggregatedTrade where
  user_address : String
  condition_id : String
  asset : String
  side : String
  slug : String
  event_slug : String
  trades : List TradeWithUser
  total_usdc_size : ℚ
  average_price : ℚ
  first_trade_time : ℚ
  last_trade_time : ℚ
deriving DecidableEq, Repr

/-- The `$1.00` aggregation minimum (`TRADE_AGGREGATION_MIN_TOTAL_USD`). -/
def TRADE_AGGREGATION_MIN_TOTAL_USD : ℚ := 1

/-- `_aggregation_key`: `f"{user}:{conditionId}:{asset}:{side}"`. -/
def _aggregation_key (t : TradeWithUser) : String :=
  t.user_address ++ ":" ++ t.trade.conditionId ++ ":" ++ t.trade.asset ++ ":" ++
    t.trade.side

/-- Lookup in the aggregation buffer, modelled as an insertion-ordered
association list (a Python dict). -/
def assoc_get (k : String) : List (String × AggregatedTrade) → Option AggregatedTrade
  | [] => none
  | (k', v) :: rest => if k' = k then some v else assoc_get k rest

/-- Dict assignment: replace in place when the key exists, else append. -/
def assoc_set (k : String) (v : AggregatedTrade) :
    List (String × AggregatedTrade) → List (String × AggregatedTrade)
  | [] => [(k, v)]
  | (k', v') :: rest =>
    if k' = k then (k, v) :: rest else (k', v') :: assoc_set k v rest

/-- `_add_to_aggregation_buffer` of `services/trade_executor.py`: join an
existing group (appending the trade, accumulating the notional and
recomputing the volume-weighted average price) or open a new one. -/
def _add_to_aggregation_buffer (buffer : List (String × AggregatedTrade))
    (t : TradeWithUser) (now : ℚ) : List (String × AggregatedTrade) :=
  let key := _aggregation_key t
  let usdc_size := t.trade.usdcSize
  let price := t.trade.price
  match assoc_get key buffer with
  | some existing =>
    let trades' := existing.trades ++ [t]
    let total' := existing.total_usdc_size + usdc_size
    let total_value := (trades'.map fun it => it.trade.usdcSize * it.trade.price).sum
    assoc_set key
      { existing with
        trades := trades'
        total_usdc_size := total'
        average_price := if total' > 0 then total_value / total' else 0
        last_trade_time := now } buffer
  | none =>
    assoc_set key
      { user_address := t.user_address
        condition_id := t.trade.conditionId
        asset := t.trade.asset
        side := if t.trade.side = "" then "BUY" else t.trade.side
        slug := t.trade.slug
        event_slug := t.trade.eventSlug
        trades := [t]
        total_usdc_size := usdc_size
        average_price := price
        first_trade_time := now
        last_trade_time := now } buffer

/-- `_ready_aggregated_trades` of `services/trade_executor.py`: every group
whose age reached the window is removed from the buffer; it is returned as
ready when its notional reached the minimum, otherwise its constituent
trades are marked processed (third component). Returns
(ready, remaining buffer, constituents of discarded groups). -/
def _ready_aggregated_trades :
    List (String × AggregatedTrade) → ℚ → ℚ →
      List AggregatedTrade × List (String × AggregatedTrade) × List TradeWithUser
  | [], _, _ => ([], [], [])
  | (k, agg) :: rest, now, window =>
    let p := _ready_aggregated_trades rest now window
    if now - agg.first_trade_time ≥ window then
      if agg.total_usdc_size ≥ TRADE_AGGREGATION_MIN_TOTAL_USD then
        (agg :: p.1, p.2.1, p.2.2)
      else
        (p.1, p.2.1, agg.trades ++ p.2.2)
    else (p.1, (k, agg) :: p.2.1, p.2.2)

/-- The synthetic trade dispatched by `_do_aggregated_trading`: a copy of
the group's first trade with notional, price and side overridden. -/
def synthetic_trade (agg : AggregatedTrade) (first : ActivityDoc) : ActivityDoc :=
  { first with
    usdcSize := agg.total_usdc_size
    price := agg.average_price
    side := agg.side }

/-- Invariant maintained by `_add_to_aggregation_buffer` for every group:
non-empty constituents, total notional equal to the constituents' sum, and
(when that sum is positive) average price equal to the volume-weighted
average. -/
def good_group (agg : AggregatedTrade) : Prop :=
  agg.trades ≠ [] ∧
  agg.total_usdc_size = (agg.trades.map fun t => t.trade.usdcSize).sum ∧
  ((agg.trades.map fun t => t.trade.usdcSize).sum > 0 →
    agg.average_price =
      (agg.trades.map fun t => t.trade.usdcSize * t.trade.price).sum /
        (agg.trades.map fun t => t.trade.usdcSize).sum)

instance (agg : AggregatedTrade) : Decidable (good_group agg) := by
  unfold good_group
  infer_instance

/-! ## utils/error_helpers.py and utils/post_order.py -/

/-- Python `s.lower()` on a character list (ASCII case). -/
def py_lower (cs : List Char) : List Char := cs.map Char.toLower

/-- Python substring containment `pat in hay` on character lists. -/
def contains_sub (pat : List Char) : List Char → Bool
  | [] => pat.isPrefixOf []
  | c :: rest => pat.isPrefixOf (c :: rest) || contains_sub pat rest

/-- `is_insufficient_balance_or_allowance_error` of `utils/error_helpers.py`:
a falsy (absent or empty) message is not classified; otherwise the
lower-cased message is scanned for `"not enough balance"` or `"allowance"`. -/
def is_insufficient_balance_or_allowance_error (message : Option String) : Bool :=
  match message with
  | none => false
  | some msg =>
    if msg = "" then false
    else
      contains_sub "not enough balance".data (py_lower msg.data) ||
        contains_sub "allowance".data (py_lower msg.data)

/-- Modelled from the spec: `raise_if_insufficient_funds` is imported by
`utils/post_order.py` from `utils/error_helpers.py` but absent from the
sources. Per the spec's error taxonomy, it raises `InsufficientFundsError`
exactly when the message matches the insufficient balance/allowance
classifier; the book walks below use this as their abort condition. -/
def raise_if_insufficient_funds_raises (message : Option String) : Bool :=
  is_insufficient_balance_or_allowance_error message

/-- `TRADING_CONSTANTS.min_order_size_usd`. -/
def MIN_ORDER_SIZE_USD : ℚ := 1

/-- `TRADING_CONSTANTS.min_order_size_tokens`. -/
def MIN_ORDER_SIZE_TOKENS : ℚ := 1

/-- `TRADING_CONSTANTS.max_price_slippage`. -/
def max_price_slippage : ℚ := 1/20

/-- The fields of a `UserPosition` payload read by `post_order`. -/
structure UserPosition where
  asset : String
  size : ℚ
  avgPrice : ℚ
deriving DecidableEq, Repr

/-- Outcome of the sell-path preamble of `post_order` (its `sell` branch up
to the book walk). -/
inductive SellPlan where
  | skip_no_position
  | skip_below_minimum (amount : ℚ)
  | walk (start : ℚ)
deriving DecidableEq, Repr

/-- The sell-path preamble of `post_order`: no operator position skips; a
missing trader position sells the operator's whole position; otherwise the
sell size is the trader's sell fraction `size / (currentSize + size)` times
the tracked bought tokens (falling back to the operator's live position
when none are tracked) times the tier multiplier for the trade's USDC
notional; a result below the minimum token size skips, and the walk start
is capped at the operator's live position. The module-level
`COPY_STRATEGY_CONFIG` is passed as the `config` argument. -/
def compute_sell_start (config : CopyStrategyConfig)
    (my_position user_position : Option UserPosition)
    (trade_size trade_usdc_size total_bought_tokens : ℚ) : SellPlan :=
  match my_position with
  | none => .skip_no_position
  | some myPos =>
    let remaining : ℚ :=
      match user_position with
      | none => myPos.size
      | some userPos =>
        let trader_position_before := userPos.size + trade_size
        let trader_sell_percent :=
          if trader_position_before ≠ 0 then trade_size / trader_position_before
          else 0
        let base_sell_size :=
          if total_bought_tokens > 0 then total_bought_tokens * trader_sell_percent
          else myPos.size * trader_sell_percent
        base_sell_size * get_trade_multiplier config trade_usdc_size
    if remaining < MIN_ORDER_SIZE_TOKENS then .skip_below_minimum remaining
    else .walk (if remaining > myPos.size then myPos.size else remaining)

/-- One price level of an order book. -/
structure BookLevel where
  price : ℚ
  size : ℚ
deriving DecidableEq, Repr

/-- Response of the exchange to one posted order; a failure carries the
message extracted by `extract_order_error` (absent from the sources, so the
walk consumes the already-extracted optional message). -/
inductive OrderResp where
  | success
  | failure (msg : Option String)
deriving DecidableEq, Repr

/-- Environment of one book-walk iteration: the order book side read at the
top of the loop and the exchange's response to the order posted in it. -/
structure WalkIterInput where
  levels : List BookLevel
  resp : OrderResp
deriving DecidableEq, Repr

/-- Python `min(levels, key=lambda l: float(l.price))`: the first level of
minimal price. -/
def min_ask : List BookLevel → Option BookLevel
  | [] => none
  | l :: ls => some (ls.foldl (fun acc x => if x.price < acc.price then x else acc) l)

/-- Python `max(levels, key=lambda l: float(l.price))`: the first level of
maximal price. -/
def max_bid : List BookLevel → Option BookLevel
  | [] => none
  | l :: ls => some (ls.foldl (fun acc x => if x.price > acc.price then x else acc) l)

/-- The mutable loop state of the buy-path book walk. -/
structure BuyState where
  remaining : ℚ
  retry : ℕ
  total_bought_tokens : ℚ
deriving DecidableEq, Repr

/-- How the buy-path walk ended. `starved` marks an exhausted iteration
script (the environment is unspecified beyond it) and is excluded from the
persisted-outcome model. -/
inductive BuyEnd where
  | finished (st : BuyState)
  | no_asks (st : BuyState)
  | slippage (st : BuyState)
  | dust (st : BuyState)
  | funds (st : BuyState)
  | starved (st : BuyState)
deriving DecidableEq, Repr

/-- The buy-path book walk of `post_order` over a script of iteration
inputs: while `remaining > 0 and retry < RETRY_LIMIT`, read the best ask,
abort on slippage, complete on dust, else buy
`min(remaining, ask_size * price)`; a success resets the retry counter and
accumulates bought tokens, a rejection aborts when classified as
insufficient funds and otherwise consumes one retry. -/
def run_buy_walk (limit : ℕ) (trade_price : ℚ) :
    BuyState → List WalkIterInput → BuyEnd
  | st, [] =>
    if st.remaining > 0 ∧ st.retry < limit then .starved st else .finished st
  | st, inp :: rest =>
    if st.remaining > 0 ∧ st.retry < limit then
      match min_ask inp.levels with
      | none => .no_asks st
      | some lvl =>
        if lvl.price - max_price_slippage > trade_price then .slippage st
        else if st.remaining < MIN_ORDER_SIZE_USD then .dust st
        else
          let order_size := min st.remaining (lvl.size * lvl.price)
          match inp.resp with
          | .success =>
            run_buy_walk limit trade_price
              ⟨st.remaining - order_size, 0,
                st.total_bought_tokens + order_size / lvl.price⟩ rest
          | .failure msg =>
            if raise_if_insufficient_funds_raises msg then .funds st
            else
              run_buy_walk limit trade_price
                ⟨st.remaining, st.retry + 1, st.total_bought_tokens⟩ rest
    else .finished st

/-- The state carried by a buy-walk end. -/
def buy_end_state : BuyEnd → BuyState
  | .finished st => st
  | .no_asks st => st
  | .slippage st => st
  | .dust st => st
  | .funds st => st
  | .starved st => st

/-- The execution-state fields of the trade's ledger record written by
`post_order` (`bot`, `botExcutedTime`, `myBoughtSize`). -/
structure TradeDoc where
  bot : Bool
  botExcutedTime : Option ℕ
  myBoughtSize : Option ℚ
deriving DecidableEq, Repr

/-- `update_one` with `{"$set": {bot: True}}`. -/
def set_bot (d : TradeDoc) : TradeDoc := { d with bot := true }

/-- `update_one` with `{"$set": {bot: True, botExcutedTime: v}}`. -/
def set_bot_time (v : ℕ) (d : TradeDoc) : TradeDoc :=
  { d with bot := true, botExcutedTime := some v }

/-- `update_one` with `{"$set": {bot: True, myBoughtSize: x}}`. -/
def set_bot_bought (x : ℚ) (d : TradeDoc) : TradeDoc :=
  { d with bot := true, myBoughtSize := some x }

/-- `update_one` with
`{"$set": {bot: True, botExcutedTime: v, myBoughtSize: x}}`. -/
def set_bot_time_bought (v : ℕ) (x : ℚ) (d : TradeDoc) : TradeDoc :=
  { d with bot := true, botExcutedTime := some v, myBoughtSize := some x }

/-- The ledger writes performed by the buy path for each walk end: the
mid-loop write at a `break` (when any) followed by the post-loop write
(funds abort -> retry-limit sentinel; exhausted retries -> retry count;
otherwise plain completion, always persisting the bought-token total). -/
def buy_finalize (limit : ℕ) (e : BuyEnd) (doc : TradeDoc) : TradeDoc :=
  match e with
  | .no_asks st => set_bot_bought st.total_bought_tokens (set_bot doc)
  | .slippage st => set_bot_bought st.total_bought_tokens (set_bot doc)
  | .dust st =>
    set_bot_bought st.total_bought_tokens
      (set_bot_bought st.total_bought_tokens doc)
  | .funds st => set_bot_time_bought limit st.total_bought_tokens doc
  | .finished st =>
    if st.retry ≥ limit then set_bot_time_bought st.retry st.total_bought_tokens doc
    else set_bot_bought st.total_bought_tokens doc
  | .starved _ => doc

/-- The mutable loop state of the sell-path book walk. -/
structure SellState where
  remaining : ℚ
  retry : ℕ
  total_sold_tokens : ℚ
deriving DecidableEq, Repr

/-- How the sell-path walk ended (`dust` for remaining below the token
minimum, `dust_order` for a best-bid slice below it). -/
inductive SellEnd where
  | finished (st : SellState)
  | no_bids (st : SellState)
  | dust (st : SellState)
  | dust_order (st : SellState)
  | funds (st : SellState)
  | starved (st : SellState)
deriving DecidableEq, Repr

/-- The sell-path book walk of `post_order`: while
`remaining > 0 and retry < RETRY_LIMIT`, read the best bid, complete when
`remaining` or `min(remaining, bid_size)` is below the token minimum, else
sell that amount; rejection handling is as in the buy walk. -/
def run_sell_walk (limit : ℕ) : SellState → List WalkIterInput → SellEnd
  | st, [] =>
    if st.remaining > 0 ∧ st.retry < limit then .starved st else .finished st
  | st, inp :: rest =>
    if st.remaining > 0 ∧ st.retry < limit then
      match max_bid inp.levels with
      | none => .no_bids st
      | some lvl =>
        if st.remaining < MIN_ORDER_SIZE_TOKENS then .dust st
        else
          let sell_amount := min st.remaining lvl.size
          if sell_amount < MIN_ORDER_SIZE_TOKENS then .dust_order st
          else
            match inp.resp with
            | .success =>
              run_sell_walk limit
                ⟨st.remaining - sell_amount, 0,
                  st.total_sold_tokens + sell_amount⟩ rest
            | .failure msg =>
              if raise_if_insufficient_funds_raises msg then .funds st
              else
                run_sell_walk limit
                  ⟨st.remaining, st.retry + 1, st.total_sold_tokens⟩ rest
    else .finished st

/-- The ledger writes of the sell path for each walk end (the
purchase-tracking rescale touches the previous buy records, not this
trade's record). -/
def sell_finalize (limit : ℕ) (e : SellEnd) (doc : TradeDoc) : TradeDoc :=
  match e with
  | .no_bids _ => set_bot (set_bot doc)
  | .dust _ => set_bot (set_bot doc)
  | .dust_order _ => set_bot (set_bot doc)
  | .funds _ => set_bot_time limit doc
  | .finished st =>
    if st.retry ≥ limit then set_bot_time st.retry doc else set_bot doc
  | .starved _ => doc

/-- The mutable loop state of the merge-path book walk. -/
structure MergeState where
  remaining : ℚ
  retry : ℕ
deriving DecidableEq, Repr

/-- How the merge-path walk ended. -/
inductive MergeEnd where
  | finished (st : MergeState)
  | no_bids (st : MergeState)
  | funds (st : MergeState)
  | starved (st : MergeState)
deriving DecidableEq, Repr

/-- The merge-path book walk of `post_order`: while
`remaining > 0 and retry < RETRY_LIMIT`, read the best bid and sell
`remaining if remaining <= bid_size else bid_size`; rejection handling is
as in the other walks. -/
def run_merge_walk (limit : ℕ) : MergeState → List WalkIterInput → MergeEnd
  | st, [] =>
    if st.remaining > 0 ∧ st.retry < limit then .starved st else .finished st
  | st, inp :: rest =>
    if st.remaining > 0 ∧ st.retry < limit then
      match max_bid inp.levels with
      | none => .no_bids st
      | some lvl =>
        let amount := if st.remaining ≤ lvl.size then st.remaining else lvl.size
        match inp.resp with
        | .success => run_merge_walk limit ⟨st.remaining - amount, 0⟩ rest
        | .failure msg =>
          if raise_if_insufficient_funds_raises msg then .funds st
          else run_merge_walk limit ⟨st.remaining, st.retry + 1⟩ rest
    else .finished st

/-- The ledger writes of the merge path for each walk end. -/
def merge_finalize (limit : ℕ) (e : MergeEnd) (doc : TradeDoc) : TradeDoc :=
  match e with
  | .no_bids _ => set_bot (set_bot doc)
  | .funds _ => set_bot_time limit doc
  | .finished st =>
    if st.retry ≥ limit then set_bot_time st.retry doc else set_bot doc
  | .starved _ => doc

/-! ## Helper lemmas -/

theorem validate_nil_min_pos {config : CopyStrategyConfig}
    (h : validate_copy_strategy_config config = []) :
    0 < config.min_order_size_usd := by
  by_contra hc
  push_neg at hc
  simp [validate_copy_strategy_config, hc] at h

theorem validate_nil_max_pos {config : CopyStrategyConfig}
    (h : validate_copy_strategy_config config = []) :
    0 < config.max_order_size_usd := by
  by_contra hc
  push_neg at hc
  simp [validate_copy_strategy_config, hc] at h

theorem _tier_lookup_none {s : ℚ} :
    ∀ {l : List MultiplierTier}, (∀ t ∈ l, s < t.min) → _tier_lookup l s = none := by
  intro l
  induction l with
  | nil => intro _; rfl
  | cons t ts ih =>
    intro hall
    have ht : s < t.min := hall t (List.mem_cons_self t ts)
    unfold _tier_lookup
    rw [if_neg (not_le.mpr ht)]
    exact ih fun u hu => hall u (List.mem_cons_of_mem t hu)

theorem getLastD_eq_getLast (t : MultiplierTier) (ts : List MultiplierTier)
    (h : (t :: ts) ≠ []) :
    ts.getLastD t = (t :: ts).getLast h := by
  induction ts generalizing t with
  | nil => rfl
  | cons u us ih =>
    rw [List.getLastD_cons, List.getLast_cons (by simp)]
    exact ih u (by simp)

theorem mem_insert_by_min {x t : MultiplierTier} :
    ∀ {l : List MultiplierTier}, x ∈ insert_by_min t l ↔ x = t ∨ x ∈ l := by
  intro l
  induction l with
  | nil => simp [insert_by_min]
  | cons u us ih =>
    by_cases h : u.min ≤ t.min
    · simp only [insert_by_min, if_pos h, List.mem_cons, ih]
      tauto
    · simp only [insert_by_min, if_neg h, List.mem_cons]

theorem pairwise_insert_by_min (t : MultiplierTier) {l : List MultiplierTier}
    (hl : l.Pairwise (fun a b => a.min ≤ b.min)) :
    (insert_by_min t l).Pairwise (fun a b => a.min ≤ b.min) := by
  induction l with
  | nil => simp [insert_by_min]
  | cons u us ih =>
    rcases List.pairwise_cons.mp hl with ⟨hu, hus⟩
    by_cases h : u.min ≤ t.min
    · rw [insert_by_min, if_pos h]
      refine List.pairwise_cons.mpr ⟨?_, ih hus⟩
      intro v hv
      rcases mem_insert_by_min.mp hv with rfl | hv
      · exact h
      · exact hu v hv
    · rw [insert_by_min, if_neg h]
      push_neg at h
      refine List.pairwise_cons.mpr ⟨?_, hl⟩
      intro v hv
      rcases List.mem_cons.mp hv with rfl | hv
      · exact h.le
      · exact h.le.trans (hu v hv)

theorem sort_by_min_pairwise (ts : List MultiplierTier) :
    (sort_by_min ts).Pairwise (fun a b => a.min ≤ b.min) := by
  suffices h : ∀ (l acc : List MultiplierTier),
      acc.Pairwise (fun a b => a.min ≤ b.min) →
      (l.foldl (fun a t => insert_by_min t a) acc).Pairwise (fun a b => a.min ≤ b.min) by
    exact h ts [] List.Pairwise.nil
  intro l
  induction l with
  | nil => intro acc hacc; exact hacc
  | cons t ts ih =>
    intro acc hacc
    exact ih (insert_by_min t acc) (pairwise_insert_by_min t hacc)

theorem check_sorted_tiers_ok_chain :
    ∀ {l : List MultiplierTier}, check_sorted_tiers l = .ok () →
      l.Chain' (fun a b => ∀ m, a.max = some m → m ≤ b.min) ∧
      ∀ t ∈ l.dropLast, t.max ≠ none := by
  intro l
  induction l with
  | nil => intro _; exact ⟨List.chain'_nil, by simp⟩
  | cons t ts ih =>
    cases ts with
    | nil => intro _; exact ⟨List.chain'_singleton t, by simp⟩
    | cons u us =>
      intro h
      unfold check_sorted_tiers at h
      cases hm : t.max with
      | none => rw [hm] at h; simp at h
      | some m =>
        rw [hm] at h
        dsimp only at h
        by_cases hov : m > u.min
        · rw [if_pos hov] at h; simp at h
        · rw [if_neg hov] at h
          push_neg at hov
          obtain ⟨hch, hdl⟩ := ih h
          refine ⟨List.chain'_cons.mpr ⟨?_, hch⟩, ?_⟩
          · intro m' hm'
            rw [hm] at hm'
            injection hm' with e
            exact e ▸ hov
          · intro x hx
            have hx' : x = t ∨ x ∈ (u :: us).dropLast := by
              simpa [List.dropLast] using hx
            rcases hx' with rfl | hx'
            · simp [hm]
            · exact hdl x hx'

theorem assoc_get_mem {k : String} {v : AggregatedTrade} :
    ∀ {l : List (String × AggregatedTrade)}, assoc_get k l = some v → (k, v) ∈ l := by
  intro l
  induction l with
  | nil => intro h; simp [assoc_get] at h
  | cons kv rest ih =>
    obtain ⟨k', v'⟩ := kv
    intro h
    simp only [assoc_get] at h
    by_cases hk : k' = k
    · rw [if_pos hk] at h
      injection h with e
      subst hk
      subst e
      exact List.mem_cons_self _ _
    · rw [if_neg hk] at h
      exact List.mem_cons_of_mem _ (ih h)

theorem mem_assoc_set {k : String} {v : AggregatedTrade} {kv : String × AggregatedTrade} :
    ∀ {l : List (String × AggregatedTrade)},
      kv ∈ assoc_set k v l → kv = (k, v) ∨ kv ∈ l := by
  intro l
  induction l with
  | nil => intro h; simpa [assoc_set] using h
  | cons kv' rest ih =>
    obtain ⟨k', v'⟩ := kv'
    intro h
    simp only [assoc_set] at h
    by_cases hk : k' = k
    · rw [if_pos hk] at h
      rcases List.mem_cons.mp h with rfl | h
      · exact Or.inl rfl
      · exact Or.inr (List.mem_cons_of_mem _ h)
    · rw [if_neg hk] at h
      rcases List.mem_cons.mp h with rfl | h
      · exact Or.inr (List.mem_cons_self _ _)
      · rcases ih h with h' | h'
        · exact Or.inl h'
        · exact Or.inr (List.mem_cons_of_mem _ h')

theorem add_to_aggregation_buffer_good
    (buffer : List (String × AggregatedTrade)) (t : TradeWithUser) (now : ℚ)
    (h : ∀ kv ∈ buffer, good_group kv.2) :
    ∀ kv ∈ _add_to_aggregation_buffer buffer t now, good_group kv.2 := by
  intro kv hkv
  unfold _add_to_aggregation_buffer at hkv
  dsimp only at hkv
  cases hget : assoc_get (_aggregation_key t) buffer with
  | some existing =>
    rw [hget] at hkv
    dsimp only at hkv
    rcases mem_assoc_set hkv with rfl | hkv'
    · obtain ⟨hne, htot, _⟩ := h _ (assoc_get_mem hget)
      refine ⟨by simp, ?_, ?_⟩
      · dsimp only
        rw [htot]
        simp
      · intro hpos
        dsimp only at hpos ⊢
        have hsum : existing.total_usdc_size + t.trade.usdcSize =
            ((existing.trades ++ [t]).map fun it => it.trade.usdcSize).sum := by
          rw [htot]; simp
        rw [if_pos (by rw [hsum]; exact hpos), hsum]
    · exact h _ hkv'
  | none =>
    rw [hget] at hkv
    rcases mem_assoc_set hkv with rfl | hkv'
    · refine ⟨by simp, by simp, ?_⟩
      intro hpos
      dsimp only at hpos ⊢
      simp only [List.map_cons, List.map_nil, List.sum_cons, List.sum_nil,
        add_zero] at hpos ⊢
      exact (mul_div_cancel_left₀ t.trade.price (ne_of_gt hpos)).symm
    · exact h _ hkv'

/-! ## Claim theorems -/

/-- C1: for every `CopyStrategyConfig` that passes validation and
nonnegative trader order size, available balance and current position
size, `calculate_order_size` yields a `final_amount` in
`[0, max_order_size_usd]` which, when nonzero, is at least
`min_order_size_usd`. -/
theorem calculate_order_size_final_amount_bounds
    (config : CopyStrategyConfig)
    (trader_order_size available_balance current_position_size : ℚ)
    (hvalid : validate_copy_strategy_config config = [])
    (hs : 0 ≤ trader_order_size) (hbal : 0 ≤ available_balance)
    (hpos : 0 ≤ current_position_size) :
    0 ≤ (calculate_order_size config trader_order_size available_balance
          current_position_size).final_amount ∧
    (calculate_order_size config trader_order_size available_balance
          current_position_size).final_amount ≤ config.max_order_size_usd ∧
    ((calculate_order_size config trader_order_size available_balance
          current_position_size).final_amount ≠ 0 →
      config.min_order_size_usd ≤
        (calculate_order_size config trader_order_size available_balance
          current_position_size).final_amount) := by
  have hmin := validate_nil_min_pos hvalid
  have hmax := validate_nil_max_pos hvalid
  unfold calculate_order_size
  dsimp only
  cases hmps : config.max_position_size_usd with
  | none =>
    split_ifs with h1 h2 h3 h4 h5 h6 <;>
      refine ⟨?_, ?_, fun hne => ?_⟩ <;>
      first
        | linarith
        | exact absurd rfl hne
  | some mps =>
    dsimp only
    rcases max_cases 0 (mps - current_position_size) with ⟨he, hle⟩ | ⟨he, hle⟩ <;>
      rw [he] <;>
      (split_ifs with h1 h2 h3 h4 h5 h6 h7 h8 <;>
        refine ⟨?_, ?_, fun hne => ?_⟩ <;>
        first
          | linarith
          | exact absurd rfl hne)

/-- C8: with a non-empty tiered multiplier table, a trader order notional
below the minimum of every tier makes `get_trade_multiplier` return the
multiplier of the last tier of the table. -/
theorem get_trade_multiplier_below_all_tiers_last
    (config : CopyStrategyConfig) (tiers : List MultiplierTier) (s : ℚ)
    (htiers : config.tiered_multipliers = some tiers) (hne : tiers ≠ [])
    (hbelow : ∀ t ∈ tiers, s < t.min) :
    get_trade_multiplier config s = (tiers.getLast hne).multiplier := by
  cases tiers with
  | nil => exact absurd rfl hne
  | cons t ts =>
    unfold get_trade_multiplier
    rw [htiers]
    dsimp only [Option.getD]
    rw [_tier_lookup_none hbelow]
    exact congrArg MultiplierTier.multiplier (getLastD_eq_getLast t ts hne)

/-- Witness configuration for C1. -/
def cfgC1 : CopyStrategyConfig :=
  { strategy := .PERCENTAGE
    copy_size := 10
    max_order_size_usd := 100
    min_order_size_usd := 1 }

/-- Witness for C1 at a concrete valid configuration and inputs. -/
theorem calculate_order_size_final_amount_bounds_witness :
    validate_copy_strategy_config cfgC1 = [] ∧
    0 ≤ (calculate_order_size cfgC1 50 1000 0).final_amount ∧
    (calculate_order_size cfgC1 50 1000 0).final_amount ≤ cfgC1.max_order_size_usd ∧
    cfgC1.min_order_size_usd ≤ (calculate_order_size cfgC1 50 1000 0).final_amount := by
  have h := calculate_order_size_final_amount_bounds cfgC1 50 1000 0 (by decide)
    (by decide) (by decide) (by decide)
  exact ⟨by decide, h.1, h.2.1, h.2.2 (by with_unfolding_all decide)⟩

/-- Witness configuration for C8: two tiers, the smaller starting at 10. -/
def cfgC8 : CopyStrategyConfig :=
  { strategy := .FIXED
    copy_size := 5
    tiered_multipliers := some [⟨10, some 20, 2⟩, ⟨20, none, 3⟩] }

/-- Witness for C8: notional 5 is below both tier minimums and the last
tier's multiplier 3 is returned. -/
theorem get_trade_multiplier_below_all_tiers_last_witness :
    get_trade_multiplier cfgC8 5 = 3 := by
  have h := get_trade_multiplier_below_all_tiers_last cfgC8
    [⟨10, some 20, 2⟩, ⟨20, none, 3⟩] 5 rfl (by decide) (by decide)
  simpa using h

/-- C7 counterexample: tier strings with ranges out of order, or with an
unbounded tier in a non-terminal position of the string, parse without
error — the parser sorts the tiers before validating, so neither condition
raises as the claim states. -/
theorem parse_tiered_multipliers_out_of_order_ok :
    parse_tiered_multipliers "10-20:2,0-5:1" =
        .ok [⟨0, some 5, 1⟩, ⟨10, some 20, 2⟩] ∧
    parse_tiered_multipliers "7+:2,0-5:1" = .ok [⟨0, some 5, 1⟩, ⟨7, none, 2⟩] :=
  ⟨by with_unfolding_all decide, by with_unfolding_all decide⟩

/-- C7 (amended): `parse_tiered_multipliers` sorts the tiers by their
minimum before validating; overlapping ranges and an unbounded tier that is
not last after sorting raise a configuration error (shown on concrete
inputs), while out-of-order ranges are sorted rather than rejected, and
every successful parse is a table sorted by `min` with non-overlapping
consecutive ranges in which only the last tier may be unbounded. -/
theorem parse_tiered_multipliers_sorted_spec
    (s : String) (ts : List MultiplierTier)
    (h : parse_tiered_multipliers s = .ok ts) :
    ts.Pairwise (fun a b => a.min ≤ b.min) ∧
    ts.Chain' (fun a b => ∀ m, a.max = some m → m ≤ b.min) ∧
    (∀ t ∈ ts.dropLast, t.max ≠ none) ∧
    parse_tiered_multipliers "0-10:2,5-20:1" = .error "Overlapping tiers" ∧
    parse_tiered_multipliers "0+:2,5-10:1" =
      .error "Tier with infinite upper bound must be last" := by
  refine ⟨?_, ?_, ?_, by with_unfolding_all decide, by with_unfolding_all decide⟩ <;>
  · unfold parse_tiered_multipliers at h
    split at h
    · injection h with e
      subst e
      simp
    · split at h
      · simp at h
      · split at h
        · simp at h
        · injection h with e
          subst e
          first
            | exact sort_by_min_pairwise _
            | exact (check_sorted_tiers_ok_chain (by assumption)).1
            | exact (check_sorted_tiers_ok_chain (by assumption)).2

/-- Witness for the amended C7 theorem at a concrete successful parse. -/
theorem parse_tiered_multipliers_sorted_spec_witness :
    ([⟨0, some 5, 1⟩, ⟨10, some 20, 2⟩] : List MultiplierTier).Pairwise
        (fun a b => a.min ≤ b.min) ∧
    ([⟨0, some 5, 1⟩, ⟨10, some 20, 2⟩] : List MultiplierTier).Chain'
        (fun a b => ∀ m, a.max = some m → m ≤ b.min) ∧
    (⟨0, some 5, 1⟩ : MultiplierTier).max ≠ none := by
  have h := parse_tiered_multipliers_sorted_spec "10-20:2,0-5:1"
    [⟨0, some 5, 1⟩, ⟨10, some 20, 2⟩] (by with_unfolding_all decide)
  exact ⟨h.1, h.2.1, h.2.2.1 ⟨0, some 5, 1⟩ (by simp)⟩

/-- C4: processing a feed entry whose transaction hash is already in the
trader's collection changes nothing, and processing preserves the
at-most-one-record-per-transaction-hash invariant. -/
theorem process_new_trade_idempotent
    (collection : List ActivityDoc) (activity : RawActivity) (cutoff_ts : ℤ)
    (hdup : collection.Pairwise fun a b => a.transactionHash ≠ b.transactionHash) :
    ((∃ d ∈ collection, d.transactionHash = activity.transactionHash.getD "") →
        _process_new_trade collection activity cutoff_ts = collection) ∧
    (_process_new_trade collection activity cutoff_ts).Pairwise
      (fun a b => a.transactionHash ≠ b.transactionHash) := by
  unfold _process_new_trade
  dsimp only
  cases hfind : collection.find?
      (fun d => d.transactionHash == activity.transactionHash.getD "") with
  | some d => exact ⟨fun _ => rfl, hdup⟩
  | none =>
    constructor
    · rintro ⟨d, hd, hhash⟩
      have hnd := List.find?_eq_none.mp hfind d hd
      simp [hhash] at hnd
    · refine List.pairwise_append.mpr ⟨hdup, by simp, ?_⟩
      intro a ha b hb
      simp only [List.mem_singleton] at hb
      subst hb
      have hna := List.find?_eq_none.mp hfind a ha
      simpa using hna

/-- C5: the first-run bulk update leaves no unprocessed record behind —
after it, the executor's query returns nothing, every formerly unprocessed
record is stored as processed with attempt count 999, processed records are
untouched, and only records inserted after the marking can be selected for
execution. -/
theorem first_run_cold_start
    (collection new : List ActivityDoc) :
    _read_temp_trades (mark_historical_trades collection) = [] ∧
    (∀ d ∈ collection, d.bot = false →
      ({ d with bot := true, botExcutedTime := 999 } : ActivityDoc) ∈
        mark_historical_trades collection) ∧
    (∀ d ∈ collection, d.bot = true → d ∈ mark_historical_trades collection) ∧
    _read_temp_trades (mark_historical_trades collection ++ new) =
      _read_temp_trades new := by
  have hmark : ∀ d ∈ mark_historical_trades collection, d.bot = true := by
    intro d hd
    rcases List.mem_map.mp hd with ⟨c, _, rfl⟩
    by_cases hb : c.bot = false
    · simp [hb]
    · simp only [if_neg hb]
      simpa using hb
  have hempty : _read_temp_trades (mark_historical_trades collection) = [] := by
    refine List.filter_eq_nil_iff.mpr ?_
    intro d hd
    simp [hmark d hd]
  refine ⟨hempty, ?_, ?_, ?_⟩
  · intro d hd hb
    exact List.mem_map.mpr ⟨d, hd, by simp [hb]⟩
  · intro d hd hb
    refine List.mem_map.mpr ⟨d, hd, ?_⟩
    rw [if_neg (by simp [hb])]
  · unfold _read_temp_trades at hempty ⊢
    rw [List.filter_append, hempty, List.nil_append]

/-- Witness document for C4. -/
def docC4 : ActivityDoc :=
  { proxyWallet := "0xtrader", timestamp := 100, conditionId := "c1"
    type := "TRADE", size := 10, usdcSize := 5, transactionHash := "0xabc"
    price := 1/2, asset := "a1", side := "BUY", outcomeIndex := 0
    title := "", slug := "", icon := "", eventSlug := "", outcome := ""
    name := "", pseudonym := "", bio := "", profileImage := ""
    profileImageOptimized := "", bot := false, botExcutedTime := 0 }

/-- Witness feed entry for C4, carrying the same transaction hash. -/
def rawC4 : RawActivity :=
  { transactionHash := some "0xabc", timestamp := some 100 }

/-- Witness for C4: re-ingesting the already-stored transaction hash leaves
the collection unchanged. -/
theorem process_new_trade_idempotent_witness :
    [docC4].Pairwise (fun a b => a.transactionHash ≠ b.transactionHash) ∧
    docC4.transactionHash = rawC4.transactionHash.getD "" ∧
    _process_new_trade [docC4] rawC4 0 = [docC4] := by
  have h := process_new_trade_idempotent [docC4] rawC4 0 (by simp)
  exact ⟨by simp, rfl, h.1 ⟨docC4, by simp, rfl⟩⟩

/-- C6: draining removes every group whose age reached the window from the
buffer; a removed group with notional at least the minimum is returned as
exactly one ready group, whose synthetic trade carries the sum of the
constituent notionals and the volume-weighted average price; a removed
group below the minimum only marks its constituent trades processed. -/
theorem aggregation_drain_spec
    (buffer : List (String × AggregatedTrade)) (now window : ℚ)
    (hgood : ∀ kv ∈ buffer, good_group kv.2) :
    (∀ kv ∈ (_ready_aggregated_trades buffer now window).2.1,
        now - kv.2.first_trade_time < window) ∧
    (∀ agg ∈ (_ready_aggregated_trades buffer now window).1,
        now - agg.first_trade_time ≥ window ∧
        TRADE_AGGREGATION_MIN_TOTAL_USD ≤ agg.total_usdc_size ∧
        ∀ first : ActivityDoc,
          (synthetic_trade agg first).usdcSize =
              (agg.trades.map fun t => t.trade.usdcSize).sum ∧
            (synthetic_trade agg first).price =
              (agg.trades.map fun t => t.trade.usdcSize * t.trade.price).sum /
                (agg.trades.map fun t => t.trade.usdcSize).sum) ∧
    (∀ kv ∈ buffer, now - kv.2.first_trade_time ≥ window →
        kv.2.total_usdc_size < TRADE_AGGREGATION_MIN_TOTAL_USD →
        ∀ t ∈ kv.2.trades, t ∈ (_ready_aggregated_trades buffer now window).2.2) := by
  induction buffer with
  | nil =>
    refine ⟨?_, ?_, ?_⟩ <;> simp [_ready_aggregated_trades]
  | cons kv rest ih =>
    obtain ⟨k, agg⟩ := kv
    obtain ⟨ih1, ih2, ih3⟩ := ih fun x hx => hgood x (List.mem_cons_of_mem _ hx)
    have hg : good_group agg := hgood (k, agg) (List.mem_cons_self _ _)
    unfold _ready_aggregated_trades
    dsimp only
    by_cases hage : now - agg.first_trade_time ≥ window
    · rw [if_pos hage]
      by_cases hmin : agg.total_usdc_size ≥ TRADE_AGGREGATION_MIN_TOTAL_USD
      · rw [if_pos hmin]
        refine ⟨ih1, ?_, ?_⟩
        · intro a ha
          rcases List.mem_cons.mp ha with rfl | ha
          · refine ⟨hage, hmin, ?_⟩
            intro first
            obtain ⟨_, htot, havg⟩ := hg
            have hpos : (0:ℚ) <
                (a.trades.map fun t => t.trade.usdcSize).sum := by
              have h1 : (0:ℚ) < TRADE_AGGREGATION_MIN_TOTAL_USD := by
                norm_num [TRADE_AGGREGATION_MIN_TOTAL_USD]
              rw [← htot]
              linarith
            exact ⟨by simpa [synthetic_trade] using htot,
              by simpa [synthetic_trade] using havg hpos⟩
          · exact ih2 a ha
        · intro x hx h1 h2 t ht
          rcases List.mem_cons.mp hx with rfl | hx
          · exact absurd h2 (not_lt.mpr hmin)
          · exact ih3 x hx h1 h2 t ht
      · rw [if_neg hmin]
        refine ⟨ih1, ih2, ?_⟩
        intro x hx h1 h2 t ht
        rcases List.mem_cons.mp hx with rfl | hx
        · exact List.mem_append_left _ ht
        · exact List.mem_append_right _ (ih3 x hx h1 h2 t ht)
    · rw [if_neg hage]
      push_neg at hage
      refine ⟨?_, ih2, ?_⟩
      · intro x hx
        rcases List.mem_cons.mp hx with rfl | hx
        · exact hage
        · exact ih1 x hx
      · intro x hx h1 h2 t ht
        rcases List.mem_cons.mp hx with rfl | hx
        · exact absurd h1 (not_le.mpr hage)
        · exact ih3 x hx h1 h2 t ht

/-- Base constituent trade for the C6 witness: a $0.50 BUY at price `p`. -/
def tradeC6 (p : ℚ) : TradeWithUser :=
  { trade :=
      { proxyWallet := "0xtrader", timestamp := 100, conditionId := "c1"
        type := "TRADE", size := 1, usdcSize := 1/2, transactionHash := ""
        price := p, asset := "a1", side := "BUY", outcomeIndex := 0
        title := "", slug := "s", icon := "", eventSlug := "", outcome := ""
        name := "", pseudonym := "", bio := "", profileImage := ""
        profileImageOptimized := "", bot := false, botExcutedTime := 0 }
    user_address := "0xU" }

/-- Buffer for the C6 witness: three $0.50 trades of one group, joined at
times 0, 1 and 2. -/
def bufferC6 : List (String × AggregatedTrade) :=
  _add_to_aggregation_buffer
    (_add_to_aggregation_buffer
      (_add_to_aggregation_buffer [] (tradeC6 (2/5)) 0) (tradeC6 (1/2)) 1)
    (tradeC6 (3/5)) 2

/-- The single group drained from the C6 witness buffer at time 10 with a
10-second window. -/
def groupC6 : AggregatedTrade :=
  ((_ready_aggregated_trades bufferC6 10 10).1).headD
    { user_address := "", condition_id := "", asset := "", side := ""
      slug := "", event_slug := "", trades := [], total_usdc_size := 0
      average_price := 0, first_trade_time := 0, last_trade_time := 0 }

/-- Witness for C6: the three $0.50 trades dispatch as one synthetic trade
of $1.50 notional at the volume-weighted average price 0.5. -/
theorem aggregation_drain_spec_witness :
    (_ready_aggregated_trades bufferC6 10 10).1 = [groupC6] ∧
    (synthetic_trade groupC6 (tradeC6 (2/5)).trade).usdcSize =
      (groupC6.trades.map fun t => t.trade.usdcSize).sum ∧
    (synthetic_trade groupC6 (tradeC6 (2/5)).trade).price =
      (groupC6.trades.map fun t => t.trade.usdcSize * t.trade.price).sum /
        (groupC6.trades.map fun t => t.trade.usdcSize).sum ∧
    (synthetic_trade groupC6 (tradeC6 (2/5)).trade).usdcSize = 3/2 ∧
    (synthetic_trade groupC6 (tradeC6 (2/5)).trade).price = 1/2 := by
  have hmem : groupC6 ∈ (_ready_aggregated_trades bufferC6 10 10).1 := by
    with_unfolding_all decide
  have h := (aggregation_drain_spec bufferC6 10 10
    (by with_unfolding_all decide)).2.1 groupC6 hmem
  have h4 := h.2.2 (tradeC6 (2/5)).trade
  exact ⟨by with_unfolding_all decide, h4.1, h4.2,
    by with_unfolding_all decide, by with_unfolding_all decide⟩

/-- C9: in the sell path, an operator position with no trader position
snapshot sells the operator's entire position, independently of the
strategy configuration, the trade sizes and the tracked bought tokens;
only the minimum-token-size skip applies. -/
theorem sell_trader_closed_sells_entire_position
    (config : CopyStrategyConfig) (myPos : UserPosition)
    (trade_size trade_usdc_size total_bought_tokens : ℚ) :
    compute_sell_start config (some myPos) none trade_size trade_usdc_size
        total_bought_tokens =
      if myPos.size < MIN_ORDER_SIZE_TOKENS then .skip_below_minimum myPos.size
      else .walk myPos.size := by
  unfold compute_sell_start
  dsimp only
  by_cases h : myPos.size < MIN_ORDER_SIZE_TOKENS
  · rw [if_pos h, if_pos h]
  · rw [if_neg h, if_neg h, if_neg (lt_irrefl myPos.size)]

/-- C2: with an operator position, a trader position snapshot and tracked
bought tokens `T > 0`, the sell-path walk starts at
`min(myPosition, m * T * s / (c + s))`, a computed amount below the token
minimum skips, and a walk start never exceeds the operator's position. -/
theorem sell_fraction_spec
    (config : CopyStrategyConfig) (myPos userPos : UserPosition)
    (s usdc T : ℚ) (hT : 0 < T) (hcs : userPos.size + s ≠ 0) :
    (MIN_ORDER_SIZE_TOKENS ≤
        get_trade_multiplier config usdc * T * s / (userPos.size + s) →
      compute_sell_start config (some myPos) (some userPos) s usdc T =
        .walk (min myPos.size
          (get_trade_multiplier config usdc * T * s / (userPos.size + s)))) ∧
    (get_trade_multiplier config usdc * T * s / (userPos.size + s) <
        MIN_ORDER_SIZE_TOKENS →
      compute_sell_start config (some myPos) (some userPos) s usdc T =
        .skip_below_minimum
          (get_trade_multiplier config usdc * T * s / (userPos.size + s))) ∧
    (∀ a, compute_sell_start config (some myPos) (some userPos) s usdc T =
        .walk a → a ≤ myPos.size) := by
  have harith : T * (s / (userPos.size + s)) * get_trade_multiplier config usdc =
      get_trade_multiplier config usdc * T * s / (userPos.size + s) := by
    field_simp
    ring
  have key : compute_sell_start config (some myPos) (some userPos) s usdc T =
      (if get_trade_multiplier config usdc * T * s / (userPos.size + s) <
          MIN_ORDER_SIZE_TOKENS then
        SellPlan.skip_below_minimum
          (get_trade_multiplier config usdc * T * s / (userPos.size + s))
      else
        SellPlan.walk
          (if get_trade_multiplier config usdc * T * s / (userPos.size + s) >
              myPos.size then myPos.size
           else get_trade_multiplier config usdc * T * s / (userPos.size + s))) := by
    unfold compute_sell_start
    dsimp only
    rw [if_pos hcs, if_pos hT, harith]
  refine ⟨?_, ?_, ?_⟩
  · intro h
    rw [key, if_neg (not_lt.mpr h)]
    by_cases hgt : get_trade_multiplier config usdc * T * s / (userPos.size + s) >
        myPos.size
    · rw [if_pos hgt, min_eq_left hgt.le]
    · rw [if_neg hgt, min_eq_right (not_lt.mp hgt)]
  · intro h
    rw [key, if_pos h]
  · intro a ha
    rw [key] at ha
    by_cases hlt : get_trade_multiplier config usdc * T * s / (userPos.size + s) <
        MIN_ORDER_SIZE_TOKENS
    · rw [if_pos hlt] at ha
      exact absurd ha (by simp)
    · rw [if_neg hlt] at ha
      injection ha with e
      subst e
      by_cases hgt : get_trade_multiplier config usdc * T * s / (userPos.size + s) >
          myPos.size
      · rw [if_pos hgt]
      · rw [if_neg hgt]
        exact not_lt.mp hgt

/-- Strategy configuration for the C2 witness: no tiers and no scalar, so
the trade multiplier is 1. -/
def cfgC2 : CopyStrategyConfig := { strategy := .FIXED, copy_size := 5 }

/-- Witness for C2, the spec's worked example: the trader holds 100 tokens
after selling 25 (fraction 0.2), the operator tracked 40 bought tokens and
holds 50, so the walk starts at 8 tokens. -/
theorem sell_fraction_spec_witness :
    compute_sell_start cfgC2 (some ⟨"a1", 50, 1/2⟩) (some ⟨"a1", 100, 1/2⟩)
      25 10 40 = .walk 8 := by
  have h := (sell_fraction_spec cfgC2 ⟨"a1", 50, 1/2⟩ ⟨"a1", 100, 1/2⟩ 25 10 40
    (by norm_num) (by norm_num)).1 (by with_unfolding_all decide)
  exact h.trans (by with_unfolding_all decide)

/-- C10: every non-starved end of the buy-path walk persists the cumulative
bought-token total of its final state in the `myBoughtSize` field of the
trade's record. -/
theorem buy_walk_persists_bought_tokens
    (limit : ℕ) (trade_price : ℚ) (st : BuyState) (script : List WalkIterInput)
    (doc : TradeDoc)
    (hns : run_buy_walk limit trade_price st script ≠
      .starved (buy_end_state (run_buy_walk limit trade_price st script))) :
    (buy_finalize limit (run_buy_walk limit trade_price st script) doc).myBoughtSize
      = some (buy_end_state
          (run_buy_walk limit trade_price st script)).total_bought_tokens := by
  cases he : run_buy_walk limit trade_price st script with
  | starved st' => rw [he] at hns; exact absurd rfl hns
  | finished st' =>
    by_cases h : st'.retry ≥ limit
    · simp [buy_finalize, buy_end_state, h, set_bot_time_bought]
    · simp [buy_finalize, buy_end_state, h, set_bot_bought]
  | no_asks st' => simp [buy_finalize, buy_end_state, set_bot_bought, set_bot]
  | slippage st' => simp [buy_finalize, buy_end_state, set_bot_bought, set_bot]
  | dust st' => simp [buy_finalize, buy_end_state, set_bot_bought]
  | funds st' => simp [buy_finalize, buy_end_state, set_bot_time_bought]

/-- Walk script for the C10 witness: one fully-filling successful buy. -/
def scriptC10 : List WalkIterInput := [⟨[⟨1/2, 20⟩], .success⟩]

/-- Witness for C10: a $5 buy filled in one $5 order at price 0.5 ends
normally and persists 10 bought tokens. -/
theorem buy_walk_persists_bought_tokens_witness :
    (buy_finalize 3 (run_buy_walk 3 (1/2) ⟨5, 0, 0⟩ scriptC10)
        ⟨false, none, none⟩).myBoughtSize =
      some (buy_end_state (run_buy_walk 3 (1/2) ⟨5, 0, 0⟩ scriptC10)).total_bought_tokens := by
  exact buy_walk_persists_bought_tokens 3 (1/2) ⟨5, 0, 0⟩ scriptC10 ⟨false, none, none⟩
    (by with_unfolding_all decide)

/-- C3: in each of the three book walks (buy, sell, merge), a rejection
classified as insufficient balance/allowance ends the walk at once with the
retry counter untouched and the record marked processed with the
retry-limit sentinel, while any other rejection increments the retry
counter by exactly one and the walk continues — until the retry limit,
at which the walk is finished. -/
theorem order_rejection_classification
    (limit : ℕ) (trade_price : ℚ) (doc : TradeDoc) (msg : Option String)
    (inp : WalkIterInput) (rest : List WalkIterInput) (lvl : BookLevel) :
    (∀ st : BuyState, st.remaining > 0 → st.retry < limit →
      min_ask inp.levels = some lvl →
      ¬ lvl.price - max_price_slippage > trade_price →
      ¬ st.remaining < MIN_ORDER_SIZE_USD →
      inp.resp = .failure msg →
      ((is_insufficient_balance_or_allowance_error msg = true →
          run_buy_walk limit trade_price st (inp :: rest) = .funds st ∧
          (buy_finalize limit (.funds st) doc).bot = true ∧
          (buy_finalize limit (.funds st) doc).botExcutedTime = some limit) ∧
        (is_insufficient_balance_or_allowance_error msg = false →
          run_buy_walk limit trade_price st (inp :: rest) =
            run_buy_walk limit trade_price
              ⟨st.remaining, st.retry + 1, st.total_bought_tokens⟩ rest))) ∧
    (∀ st : BuyState, limit ≤ st.retry → ∀ script,
      run_buy_walk limit trade_price st script = .finished st) ∧
    (∀ st : SellState, st.remaining > 0 → st.retry < limit →
      max_bid inp.levels = some lvl →
      ¬ st.remaining < MIN_ORDER_SIZE_TOKENS →
      ¬ min st.remaining lvl.size < MIN_ORDER_SIZE_TOKENS →
      inp.resp = .failure msg →
      ((is_insufficient_balance_or_allowance_error msg = true →
          run_sell_walk limit st (inp :: rest) = .funds st ∧
          (sell_finalize limit (.funds st) doc).bot = true ∧
          (sell_finalize limit (.funds st) doc).botExcutedTime = some limit) ∧
        (is_insufficient_balance_or_allowance_error msg = false →
          run_sell_walk limit st (inp :: rest) =
            run_sell_walk limit
              ⟨st.remaining, st.retry + 1, st.total_sold_tokens⟩ rest))) ∧
    (∀ st : SellState, limit ≤ st.retry → ∀ script,
      run_sell_walk limit st script = .finished st) ∧
    (∀ st : MergeState, st.remaining > 0 → st.retry < limit →
      max_bid inp.levels = some lvl →
      inp.resp = .failure msg →
      ((is_insufficient_balance_or_allowance_error msg = true →
          run_merge_walk limit st (inp :: rest) = .funds st ∧
          (merge_finalize limit (.funds st) doc).bot = true ∧
          (merge_finalize limit (.funds st) doc).botExcutedTime = some limit) ∧
        (is_insufficient_balance_or_allowance_error msg = false →
          run_merge_walk limit st (inp :: rest) =
            run_merge_walk limit ⟨st.remaining, st.retry + 1⟩ rest))) ∧
    (∀ st : MergeState, limit ≤ st.retry → ∀ script,
      run_merge_walk limit st script = .finished st) := by
  refine ⟨?_, ?_, ?_, ?_, ?_, ?_⟩
  · intro st h1 h2 hask hsl hdust hresp
    have hcond : st.remaining > 0 ∧ st.retry < limit := ⟨h1, h2⟩
    constructor
    · intro hins
      refine ⟨?_, rfl, rfl⟩
      simp [run_buy_walk, hcond, hask, hsl, hdust, hresp,
        raise_if_insufficient_funds_raises, hins]
    · intro hins
      simp [run_buy_walk, hcond, hask, hsl, hdust, hresp,
        raise_if_insufficient_funds_raises, hins]
  · intro st hret script
    have hc : ¬(st.remaining > 0 ∧ st.retry < limit) := by
      rintro ⟨_, hlt⟩
      exact absurd hret (not_le.mpr hlt)
    cases script with
    | nil => simp [run_buy_walk, hc]
    | cons a b => simp [run_buy_walk, hc]
  · intro st h1 h2 hbid hdust hdust2 hresp
    have hcond : st.remaining > 0 ∧ st.retry < limit := ⟨h1, h2⟩
    constructor
    · intro hins
      refine ⟨?_, rfl, rfl⟩
      simp [run_sell_walk, hcond, hbid, hdust, hdust2, hresp,
        raise_if_insufficient_funds_raises, hins]
    · intro hins
      simp [run_sell_walk, hcond, hbid, hdust, hdust2, hresp,
        raise_if_insufficient_funds_raises, hins]
  · intro st hret script
    have hc : ¬(st.remaining > 0 ∧ st.retry < limit) := by
      rintro ⟨_, hlt⟩
      exact absurd hret (not_le.mpr hlt)
    cases script with
    | nil => simp [run_sell_walk, hc]
    | cons a b => simp [run_sell_walk, hc]
  · intro st h1 h2 hbid hresp
    have hcond : st.remaining > 0 ∧ st.retry < limit := ⟨h1, h2⟩
    constructor
    · intro hins
      refine ⟨?_, rfl, rfl⟩
      simp [run_merge_walk, hcond, hbid, hresp,
        raise_if_insufficient_funds_raises, hins]
    · intro hins
      simp [run_merge_walk, hcond, hbid, hresp,
        raise_if_insufficient_funds_raises, hins]
  · intro st hret script
    have hc : ¬(st.remaining > 0 ∧ st.retry < limit) := by
      rintro ⟨_, hlt⟩
      exact absurd hret (not_le.mpr hlt)
    cases script with
    | nil => simp [run_merge_walk, hc]
    | cons a b => simp [run_merge_walk, hc]

/-- Witness for C3: one rejected order per walk, with an insufficient-funds
message (immediate abort, sentinel attempt count, retry untouched) and with
an unrelated message (one retry consumed, walk continues). -/
theorem order_rejection_classification_witness :
    run_buy_walk 3 (1/2) ⟨5, 0, 0⟩
        [⟨[⟨1/2, 20⟩], .failure (some "Not Enough Balance")⟩] = .funds ⟨5, 0, 0⟩ ∧
    (buy_finalize 3 (.funds ⟨5, 0, 0⟩) ⟨false, none, none⟩).botExcutedTime = some 3 ∧
    run_buy_walk 3 (1/2) ⟨5, 0, 0⟩
        [⟨[⟨1/2, 20⟩], .failure (some "invalid signature")⟩] =
      run_buy_walk 3 (1/2) ⟨5, 1, 0⟩ [] ∧
    run_sell_walk 3 ⟨5, 0, 0⟩
        [⟨[⟨1/2, 20⟩], .failure (some "Not Enough Balance")⟩] = .funds ⟨5, 0, 0⟩ ∧
    run_sell_walk 3 ⟨5, 0, 0⟩
        [⟨[⟨1/2, 20⟩], .failure (some "invalid signature")⟩] =
      run_sell_walk 3 ⟨5, 1, 0⟩ [] ∧
    run_merge_walk 3 ⟨5, 0⟩
        [⟨[⟨1/2, 20⟩], .failure (some "Not Enough Balance")⟩] = .funds ⟨5, 0⟩ ∧
    run_merge_walk 3 ⟨5, 0⟩
        [⟨[⟨1/2, 20⟩], .failure (some "invalid signature")⟩] =
      run_merge_walk 3 ⟨5, 1⟩ [] := by
  have hI := order_rejection_classification 3 (1/2) ⟨false, none, none⟩
    (some "Not Enough Balance")
    ⟨[⟨1/2, 20⟩], .failure (some "Not Enough Balance")⟩ [] ⟨1/2, 20⟩
  have hO := order_rejection_classification 3 (1/2) ⟨false, none, none⟩
    (some "invalid signature")
    ⟨[⟨1/2, 20⟩], .failure (some "invalid signature")⟩ [] ⟨1/2, 20⟩
  have hbI := (hI.1 ⟨5, 0, 0⟩ (by norm_num) (by norm_num)
    (by with_unfolding_all decide) (by with_unfolding_all decide)
    (by with_unfolding_all decide) rfl).1 (by with_unfolding_all decide)
  have hbO := (hO.1 ⟨5, 0, 0⟩ (by norm_num) (by norm_num)
    (by with_unfolding_all decide) (by with_unfolding_all decide)
    (by with_unfolding_all decide) rfl).2 (by with_unfolding_all decide)
  have hsI := (hI.2.2.1 ⟨5, 0, 0⟩ (by norm_num) (by norm_num)
    (by with_unfolding_all decide) (by with_unfolding_all decide)
    (by with_unfolding_all decide) rfl).1 (by with_unfolding_all decide)
  have hsO := (hO.2.2.1 ⟨5, 0, 0⟩ (by norm_num) (by norm_num)
    (by with_unfolding_all decide) (by with_unfolding_all decide)
    (by with_unfolding_all decide) rfl).2 (by with_unfolding_all decide)
  have hmI := (hI.2.2.2.2.1 ⟨5, 0⟩ (by norm_num) (by norm_num)
    (by with_unfolding_all decide) rfl).1 (by with_unfolding_all decide)
  have hmO := (hO.2.2.2.2.1 ⟨5, 0⟩ (by norm_num) (by norm_num)
    (by with_unfolding_all decide) rfl).2 (by with_unfolding_all decide)
  exact ⟨hbI.1, hbI.2.2, hbO, hsI.1, hsO, hmI.1, hmO⟩

end PolymarketBot
